import Mathlib

/-!
Verification of the Autolinker match/matcher engine specification against the
repository source. The `Match` data model is embedded from
`src/src/match/Match.ts`; the Phone matcher, Collector and Replacer are not
present under `src/` (only the Phone matcher's test file is), so they are
modelled from the specification's words, as marked in their doc comments.
-/

namespace Autolinker

/-- Embeds the external collaborator `AnchorTagBuilder` (imported by
`src/src/match/Match.ts` but implemented outside this core) as an opaque-style
record; the core only stores and forwards it. -/
structure AnchorTagBuilder where
  className : String
deriving DecidableEq, Repr

/-- Discriminant for the concrete `Match` subtypes (`getType` is abstract in
the source; each subtype returns its own type name). Modelled as a tagged
variant per the spec's data-model section. -/
inductive MatchKind where
  | url
  | email
  | phone
  | mention
  | hashtag
deriving DecidableEq, Repr

/-- The string type name each concrete `Match` subtype returns from its
`getType()` implementation. -/
def MatchKind.typeName : MatchKind → String
  | .url => "url"
  | .email => "email"
  | .phone => "phone"
  | .mention => "mention"
  | .hashtag => "hashtag"

/-- Embeds `MatchConfig` from `src/src/match/Match.ts` (lines 183-187):
`tagBuilder`, `matchedText`, `offset`. JavaScript numbers used as indices are
modelled as `Int` so that negative offsets are representable. -/
structure MatchConfig where
  tagBuilder : AnchorTagBuilder
  matchedText : String
  offset : Int
deriving DecidableEq, Repr

/-- Embeds the abstract class `Match` from `src/src/match/Match.ts`: fields
`tagBuilder` (readonly), `matchedText` (readonly), `offset` (mutable), plus
the subtype discriminant `kind` standing for the concrete subclass. -/
structure Match where
  tagBuilder : AnchorTagBuilder
  matchedText : String
  offset : Int
  kind : MatchKind
deriving DecidableEq, Repr

/-- Embeds the `Match` constructor (`Match.ts` lines 64-68): copies
`cfg.tagBuilder`, `cfg.matchedText`, `cfg.offset` verbatim, with no
validation. The `kind` argument stands for which concrete subclass is being
constructed. -/
def Match.ofConfig (kind : MatchKind) (cfg : MatchConfig) : Match :=
  { tagBuilder := cfg.tagBuilder
    matchedText := cfg.matchedText
    offset := cfg.offset
    kind := kind }

/-- Embeds `Match.getType()` (abstract in `Match.ts` line 77; each subtype
returns its type name). -/
def Match.getType (m : Match) : String :=
  m.kind.typeName

/-- Embeds `Match.getMatchedText()` (`Match.ts` lines 85-87). -/
def Match.getMatchedText (m : Match) : String :=
  m.matchedText

/-- Embeds `Match.setOffset()` (`Match.ts` lines 102-104): assigns the
`offset` field. Mutation is modelled by returning the updated record. -/
def Match.setOffset (m : Match) (offset : Int) : Match :=
  { m with offset := offset }

/-- Embeds `Match.getOffset()` (`Match.ts` lines 113-115). -/
def Match.getOffset (m : Match) : Int :=
  m.offset

/-- Embeds `Match.getCssClassSuffixes()` (`Match.ts` lines 157-159):
`return [ this.getType() ];`. -/
def Match.getCssClassSuffixes (m : Match) : List String :=
  [m.getType]

/-- The derived end offset: `offset + matchedText.length` (exclusive), per
the spec's data model. -/
def Match.endOffset (m : Match) : Int :=
  m.offset + m.matchedText.length

/-- A convenient concrete tag builder for witnesses. -/
def tbDefault : AnchorTagBuilder :=
  { className := "" }

/-- Modelled from the spec: the result record of the Phone matcher, whose
implementation is not under `src/` (only its test file is). `matchedText` is
the literal substring including punctuation, `offset` the 0-based index where
it begins, `number` the normalized digit string (punctuation stripped). -/
structure PhoneMatch where
  matchedText : String
  offset : Nat
  number : String
deriving DecidableEq, Repr

/-- Modelled from the spec: the common phone separators tolerated between
digit groups (hyphens, dots, spaces). -/
def isSepChar (c : Char) : Bool :=
  c == '-' || c == '.' || c == ' '

/-- Modelled from the spec: consume one optional separator character. -/
def skipOptSep : List Char → List Char
  | [] => []
  | c :: cs => if isSepChar c then cs else c :: cs

/-- Modelled from the spec: consume exactly `n` digit characters, returning
the remainder, or fail. -/
def takeDigits : Nat → List Char → Option (List Char)
  | 0, cs => some cs
  | _ + 1, [] => none
  | n + 1, c :: cs => if c.isDigit then takeDigits n cs else none

/-- Modelled from the spec: consume up to `n` further digit characters. -/
def takeUpToDigits : Nat → List Char → List Char
  | 0, cs => cs
  | _ + 1, [] => []
  | n + 1, c :: cs => if c.isDigit then takeUpToDigits n cs else c :: cs

/-- Modelled from the spec: the optional leading `+` and 1-3 digit country
code, followed by an optional separator. Absent when the text does not start
with `+`; a `+` not followed by a digit is not a phone start. -/
def parseCountryOpt : List Char → Option (List Char)
  | '+' :: c :: cs => if c.isDigit then some (skipOptSep (takeUpToDigits 2 cs)) else none
  | ['+'] => none
  | cs => some cs

/-- Modelled from the spec: the three-digit area code, with optional
enclosing parentheses (`(123)` or `123`). An opening parenthesis commits to
the parenthesized form, so a phone-like sequence inside an outer
parenthetical matches only from its inner span. -/
def parseArea : List Char → Option (List Char)
  | '(' :: cs =>
    match takeDigits 3 cs with
    | some (')' :: rest) => some rest
    | _ => none
  | cs => takeDigits 3 cs

/-- Modelled from the spec: the optional extension suffix, `#` followed by
one or more digits. -/
def parseExtOpt : List Char → List Char
  | '#' :: c :: cs => if c.isDigit then (c :: cs).dropWhile Char.isDigit else '#' :: c :: cs
  | cs => cs

/-- Modelled from the spec: attempt to recognize one phone number starting at
the head of `cs`: optional `+`/country code, area code (parens optional),
optional separator, three digits, optional separator, four digits, optional
extension; the match must not end mid-word (next character not alphanumeric).
Returns the number of characters matched. -/
def parsePhoneAt (cs : List Char) : Option Nat :=
  match parseCountryOpt cs with
  | none => none
  | some r1 =>
    match parseArea r1 with
    | none => none
    | some r2 =>
      match takeDigits 3 (skipOptSep r2) with
      | none => none
      | some r3 =>
        match takeDigits 4 (skipOptSep r3) with
        | none => none
        | some r4 =>
          let r5 := parseExtOpt r4
          match r5 with
          | c :: _ => if c.isAlphanum then none else some (cs.length - r5.length)
          | [] => some (cs.length - r5.length)

/-- Modelled from the spec: a match must not start mid-word: the preceding
character, when there is one, is not alphanumeric. -/
def prevBoundaryOk : Option Char → Bool
  | none => true
  | some c => !c.isAlphanum

/-- Modelled from the spec: the Phone matcher's left-to-right scan over a
text-node string: at each position with an acceptable left word-boundary, try
to recognize a phone number; on success emit a `PhoneMatch` (literal text,
offset, normalized digits) and resume after it, else advance one character.
`fuel` bounds the recursion by the input length. -/
def scanPhones : Nat → Option Char → Nat → List Char → List PhoneMatch
  | 0, _, _, _ => []
  | _ + 1, _, _, [] => []
  | fuel + 1, prev, idx, c :: cs =>
    match (if prevBoundaryOk prev then parsePhoneAt (c :: cs) else none) with
    | some len =>
      { matchedText := String.mk ((c :: cs).take len)
        offset := idx
        number := String.mk (((c :: cs).take len).filter Char.isDigit) }
        :: scanPhones fuel ((c :: cs).take len).getLast? (idx + len) ((c :: cs).drop len)
    | none => scanPhones fuel (some c) (idx + 1) cs

/-- Modelled from the spec: `PhoneMatcher.parseMatches(text)`, the Phone
matcher scan over one text-node string, whose implementation is not under
`src/` (only its test file `matcher/Phone` spec is). Total by construction:
the fuel exceeds the number of scan steps, each of which consumes at least
one character. -/
def PhoneMatcher.parseMatches (text : String) : List PhoneMatch :=
  scanPhones (text.length + 1) none 0 text.toList

/-- Modelled from the spec: word characters, used for the word-boundary
rules shared by the matchers. -/
def isWordChar (c : Char) : Bool :=
  c.isAlphanum || c == '_'

/-- Modelled from the spec: characters allowed inside a domain label. -/
def isDomainChar (c : Char) : Bool :=
  c.isAlphanum || c == '-'

/-- Modelled from the spec: the known top-level domains recognized by the
bare-domain URL form. -/
def knownTlds : List String :=
  ["com", "org", "net", "edu", "gov", "io"]

/-- The maximal run of domain-label characters and dots from the head. -/
def takeDomainRun (cs : List Char) : List Char :=
  cs.takeWhile (fun c => isDomainChar c || c == '.')

/-- Drop trailing dots from a domain run (a trailing dot is sentence
punctuation, not part of the domain). -/
def trimTrailingDots (d : List Char) : List Char :=
  (d.reverse.dropWhile (fun c => c == '.')).reverse

/-- Modelled from the spec: a bare domain with a known TLD: at least two
nonempty dot-separated labels of domain characters, the last one a known
top-level domain. -/
def isBareDomain (d : List Char) : Bool :=
  let parts := d.splitOn '.'
  decide (2 ≤ parts.length) &&
    parts.all (fun p => !p.isEmpty && p.all isDomainChar) &&
    (match parts.getLast? with
     | some t => knownTlds.contains (String.mk t)
     | none => false)

/-- Consume `p` as a literal prefix of `cs`, returning the remainder. -/
def listStartsWith : List Char → List Char → Option (List Char)
  | [], cs => some cs
  | p :: ps, c :: cs => if p == c then listStartsWith ps cs else none
  | _ :: _, [] => none

/-- Modelled from the spec: the generic left-to-right matcher scan: at each
position whose left boundary is acceptable, try to recognize one entity; on
success emit a match built from the consumed text and offset and resume
after it, else advance one character. `fuel` bounds the recursion by the
input length. -/
def scanWith {α : Type} (prevOk : Option Char → Bool) (tryParse : List Char → Option Nat)
    (mk : List Char → Nat → α) : Nat → Option Char → Nat → List Char → List α
  | 0, _, _, _ => []
  | _ + 1, _, _, [] => []
  | fuel + 1, prev, idx, c :: cs =>
    match (if prevOk prev then tryParse (c :: cs) else none) with
    | some len =>
      if len == 0 then scanWith prevOk tryParse mk fuel (some c) (idx + 1) cs
      else
        mk ((c :: cs).take len) idx
          :: scanWith prevOk tryParse mk fuel ((c :: cs).take len).getLast? (idx + len)
            ((c :: cs).drop len)
    | none => scanWith prevOk tryParse mk fuel (some c) (idx + 1) cs

/-- Modelled from the spec: the result record of the Url matcher, whose
implementation is not under `src/`. -/
structure UrlMatch where
  matchedText : String
  offset : Nat
deriving DecidableEq, Repr

/-- Modelled from the spec: the Url matcher's configuration — whether a
scheme is required for URL matching. -/
structure UrlMatcherConfig where
  requireScheme : Bool
deriving DecidableEq, Repr

/-- The default Url matcher configuration: schemeless forms allowed. -/
def urlCfgDefault : UrlMatcherConfig :=
  { requireScheme := false }

/-- Modelled from the spec: recognize an `http://` or `https://` scheme at
the head, returning its length. -/
def schemeOf (cs : List Char) : Option Nat :=
  match listStartsWith "https://".toList cs with
  | some _ => some 8
  | none =>
    match listStartsWith "http://".toList cs with
    | some _ => some 7
    | none => none

/-- Modelled from the spec: the length of a URL path scanned with an
explicit parenthesis-depth counter: `(` increments, `)` at depth zero ends
the path without being swallowed (it closes an enclosing parenthetical),
whitespace ends the path. -/
def pathLen : Nat → List Char → Nat
  | _, [] => 0
  | depth, c :: cs =>
    if c == '(' then 1 + pathLen (depth + 1) cs
    else if c == ')' then (if depth == 0 then 0 else 1 + pathLen (depth - 1) cs)
    else if c == ' ' || c == '\t' || c == '\n' then 0
    else 1 + pathLen depth cs

/-- The length of the optional `/`-initiated path at the head. -/
def optPathLen : List Char → Nat
  | '/' :: ps => 1 + pathLen 0 ps
  | _ => 0

/-- Modelled from the spec: attempt to recognize one URL at the head:
scheme-prefixed, `www.`-prefixed, or bare-domain-with-known-TLD (the last
two only when no scheme is required), followed by an optional path with
balanced-parenthesis tracking. Returns the number of characters matched,
before trailing-punctuation stripping. -/
def parseUrlAt (cfg : UrlMatcherConfig) (cs : List Char) : Option Nat :=
  match schemeOf cs with
  | some sl =>
    let d := trimTrailingDots (takeDomainRun (cs.drop sl))
    if d.isEmpty then none
    else some (sl + d.length + optPathLen ((cs.drop sl).drop d.length))
  | none =>
    if cfg.requireScheme then none
    else
      let d := trimTrailingDots (takeDomainRun cs)
      let wwwForm :=
        match listStartsWith "www.".toList d with
        | some rest => !rest.isEmpty
        | none => false
      if (wwwForm || isBareDomain d) && !d.isEmpty then
        some (d.length + optPathLen (cs.drop d.length))
      else none

/-- Modelled from the spec: the length after stripping trailing sentence
punctuation (`.`, `,`, `!`, `?`) from the first `len` characters. -/
def stripTrailingPunct (len : Nat) (cs : List Char) : Nat :=
  ((cs.take len).reverse.dropWhile (fun c => c == '.' || c == ',' || c == '!' || c == '?')).length

/-- Modelled from the spec: `UrlMatcher.parseMatches(text)` for a given
configuration: the URL scan over one text-node string, with trailing
sentence punctuation stripped from each match. -/
def UrlMatcher.parseMatches (cfg : UrlMatcherConfig) (text : String) : List UrlMatch :=
  scanWith prevBoundaryOk
    (fun cs => (parseUrlAt cfg cs).map (fun l => stripTrailingPunct l cs))
    (fun txt idx => { matchedText := String.mk txt, offset := idx })
    (text.length + 1) none 0 text.toList

/-- Modelled from the spec: the result record of the Email matcher, whose
implementation is not under `src/`. -/
structure EmailMatch where
  matchedText : String
  offset : Nat
deriving DecidableEq, Repr

/-- Modelled from the spec: characters allowed in an email local part. -/
def isLocalChar (c : Char) : Bool :=
  c.isAlphanum || c == '.' || c == '_' || c == '+' || c == '-'

/-- Modelled from the spec: a valid TLD shape: at least two alphabetic
characters. -/
def isTldShape (p : List Char) : Bool :=
  decide (2 ≤ p.length) && p.all Char.isAlpha

/-- Modelled from the spec: an email domain: nonempty dot-separated labels
of domain characters ending in a valid TLD shape. -/
def isEmailDomain (d : List Char) : Bool :=
  let parts := d.splitOn '.'
  decide (2 ≤ parts.length) &&
    parts.all (fun p => !p.isEmpty && p.all isDomainChar) &&
    (match parts.getLast? with
     | some t => isTldShape t
     | none => false)

/-- Modelled from the spec: attempt to recognize one email address at the
head: a nonempty local part not starting with a dot, `@`, and a domain with
a valid TLD shape. Returns the number of characters matched. -/
def parseEmailAt (cs : List Char) : Option Nat :=
  let lp := cs.takeWhile isLocalChar
  if lp.isEmpty || lp.head? == some '.' then none
  else
    match cs.drop lp.length with
    | '@' :: rest =>
      let d := trimTrailingDots (takeDomainRun rest)
      if isEmailDomain d then some (lp.length + 1 + d.length) else none
    | _ => none

/-- Modelled from the spec: the Email matcher's left boundary: a match is
rejected when immediately preceded by another `@` (inside an already-tagged
mention) or by a word character (part of a larger non-email token). -/
def emailPrevOk : Option Char → Bool
  | none => true
  | some c => !(isWordChar c || c == '@')

/-- Modelled from the spec: `EmailMatcher.parseMatches(text)`: the email
scan over one text-node string. -/
def EmailMatcher.parseMatches (text : String) : List EmailMatch :=
  scanWith emailPrevOk parseEmailAt
    (fun txt idx => { matchedText := String.mk txt, offset := idx })
    (text.length + 1) none 0 text.toList

/-- Modelled from the spec: the mention services, each with its own
character class and length rule. -/
inductive MentionService where
  | twitter
  | instagram
deriving DecidableEq, Repr

/-- The service-specific maximum mention identifier length. -/
def MentionService.maxLen : MentionService → Nat
  | .twitter => 15
  | .instagram => 30

/-- The service-specific mention identifier character class. -/
def MentionService.allowedChar : MentionService → Char → Bool
  | .twitter, c => c.isAlphanum || c == '_'
  | .instagram, c => c.isAlphanum || c == '_' || c == '.'

/-- The string name of a mention service. -/
def MentionService.name : MentionService → String
  | .twitter => "twitter"
  | .instagram => "instagram"

/-- Modelled from the spec: the result record of the Mention matcher, whose
implementation is not under `src/`. -/
structure MentionMatch where
  matchedText : String
  offset : Nat
  serviceName : String
deriving DecidableEq, Repr

/-- Modelled from the spec: attempt to recognize one `@`-prefixed mention at
the head: a nonempty identifier run in the service's character class, within
the service's length rule, not immediately followed by a word character. -/
def parseMentionAt (svc : MentionService) (cs : List Char) : Option Nat :=
  match cs with
  | '@' :: rest =>
    let ident := rest.takeWhile svc.allowedChar
    if ident.isEmpty || decide (svc.maxLen < ident.length) then none
    else
      match rest.drop ident.length with
      | c :: _ => if isWordChar c then none else some (1 + ident.length)
      | [] => some (1 + ident.length)
  | _ => none

/-- Modelled from the spec: a mention or hashtag must not be immediately
preceded by a word character. -/
def tokenPrevOk : Option Char → Bool
  | none => true
  | some c => !isWordChar c

/-- Modelled from the spec: `MentionMatcher.parseMatches(text)` for a given
service: the mention scan over one text-node string. -/
def MentionMatcher.parseMatches (svc : MentionService) (text : String) : List MentionMatch :=
  scanWith tokenPrevOk (parseMentionAt svc)
    (fun txt idx => { matchedText := String.mk txt, offset := idx, serviceName := svc.name })
    (text.length + 1) none 0 text.toList

/-- Modelled from the spec: the hashtag services. -/
inductive HashtagService where
  | twitter
  | facebook
  | instagram
deriving DecidableEq, Repr

/-- The service-specific maximum hashtag identifier length. -/
def HashtagService.maxLen : HashtagService → Nat
  | .twitter => 139
  | .facebook => 139
  | .instagram => 139

/-- The string name of a hashtag service. -/
def HashtagService.name : HashtagService → String
  | .twitter => "twitter"
  | .facebook => "facebook"
  | .instagram => "instagram"

/-- Modelled from the spec: the result record of the Hashtag matcher, whose
implementation is not under `src/`. -/
structure HashtagMatch where
  matchedText : String
  offset : Nat
  serviceName : String
deriving DecidableEq, Repr

/-- Modelled from the spec: attempt to recognize one `#`-prefixed hashtag at
the head: a nonempty word-character identifier run within the service's
length rule, not immediately followed by a word character. -/
def parseHashtagAt (svc : HashtagService) (cs : List Char) : Option Nat :=
  match cs with
  | '#' :: rest =>
    let ident := rest.takeWhile isWordChar
    if ident.isEmpty || decide (svc.maxLen < ident.length) then none
    else
      match rest.drop ident.length with
      | c :: _ => if isWordChar c then none else some (1 + ident.length)
      | [] => some (1 + ident.length)
  | _ => none

/-- Modelled from the spec: `HashtagMatcher.parseMatches(text)` for a given
service: the hashtag scan over one text-node string. -/
def HashtagMatcher.parseMatches (svc : HashtagService) (text : String) : List HashtagMatch :=
  scanWith tokenPrevOk (parseHashtagAt svc)
    (fun txt idx => { matchedText := String.mk txt, offset := idx, serviceName := svc.name })
    (text.length + 1) none 0 text.toList

/-- One matcher invocation: which matcher variant, its configuration, and
its input text-node string. -/
inductive MatcherCall where
  | url (cfg : UrlMatcherConfig) (text : String)
  | email (text : String)
  | phone (text : String)
  | mention (svc : MentionService) (text : String)
  | hashtag (svc : HashtagService) (text : String)
deriving DecidableEq, Repr

/-- The result of one matcher invocation, tagged by matcher variant. -/
inductive MatcherResult where
  | url (ms : List UrlMatch)
  | email (ms : List EmailMatch)
  | phone (ms : List PhoneMatch)
  | mention (ms : List MentionMatch)
  | hashtag (ms : List HashtagMatch)
deriving DecidableEq, Repr

/-- Run one matcher invocation: dispatch to the variant's `parseMatches`
with its own configuration and input text. -/
def dispatchCall : MatcherCall → MatcherResult
  | .url cfg t => .url (UrlMatcher.parseMatches cfg t)
  | .email t => .email (EmailMatcher.parseMatches t)
  | .phone t => .phone (PhoneMatcher.parseMatches t)
  | .mention svc t => .mention (MentionMatcher.parseMatches svc t)
  | .hashtag svc t => .hashtag (HashtagMatcher.parseMatches svc t)

/-- A sequence of matcher invocations of any variants, run in order. Used to
state that each call's result depends only on its own matcher, configuration
and text. -/
def runMatcherCalls : List MatcherCall → List MatcherResult
  | [] => []
  | c :: cs => dispatchCall c :: runMatcherCalls cs

/-- Inputs containing no recognizable entity for any matcher: empty,
plain-word, digits-only, whitespace-only, unbalanced punctuation, and
non-ASCII content. -/
def noEntityInputs : List String :=
  ["", "asdf", "123", "   ", "(((( ))", "héllo ☎ wörld"]

/-- Modelled from the spec: the Collector's sort order on pooled candidate
matches, whose implementation is not under `src/`: `offset` ascending, ties
broken by longer `matchedText` first. -/
def collOrder (a b : Match) : Prop :=
  a.offset < b.offset ∨ (a.offset = b.offset ∧ b.matchedText.length ≤ a.matchedText.length)

instance instDecCollOrder : DecidableRel collOrder := fun a b =>
  decidable_of_iff
    (a.offset < b.offset ∨ (a.offset = b.offset ∧ b.matchedText.length ≤ a.matchedText.length))
    Iff.rfl

instance instTotalCollOrder : IsTotal Match collOrder where
  total a b := by
    rcases lt_trichotomy a.offset b.offset with h | h | h
    · exact Or.inl (Or.inl h)
    · rcases Nat.le_total b.matchedText.length a.matchedText.length with hl | hl
      · exact Or.inl (Or.inr ⟨h, hl⟩)
      · exact Or.inr (Or.inr ⟨h.symm, hl⟩)
    · exact Or.inr (Or.inl h)

instance instTransCollOrder : IsTrans Match collOrder where
  trans a b c hab hbc := by
    rcases hab with hab | ⟨hab, hab'⟩
    · rcases hbc with hbc | ⟨hbc, _⟩
      · exact Or.inl (hab.trans hbc)
      · exact Or.inl (hbc ▸ hab)
    · rcases hbc with hbc | ⟨hbc, hbc'⟩
      · exact Or.inl (hab ▸ hbc)
      · exact Or.inr ⟨hab.trans hbc, hbc'.trans hab'⟩

/-- Modelled from the spec: step 1 of the Collector, sorting the pooled
candidate `Match` sequence by `collOrder`. -/
def sortMatches (ms : List Match) : List Match :=
  List.insertionSort collOrder ms

/-- Modelled from the spec: step 2 of the Collector, the left-to-right sweep
over already-sorted candidates, with `e` the end offset of the previously
accepted match: a candidate whose `offset` is strictly below `e` is rejected;
otherwise it is accepted and the running end advances to its `endOffset`. -/
def sweep : Int → List Match → List Match
  | _, [] => []
  | e, c :: rest => if c.offset < e then sweep e rest else c :: sweep c.endOffset rest

/-- Modelled from the spec: the sweep over the whole sorted candidate list;
the first candidate has no previously accepted match and is always
accepted. -/
def sweepAll : List Match → List Match
  | [] => []
  | c :: rest => c :: sweep c.endOffset rest

/-- Modelled from the spec: the Collector's overlap resolution, whose
implementation is not under `src/`: sort the pooled candidates, then sweep
left to right. -/
def resolveOverlaps (ms : List Match) : List Match :=
  sweepAll (sortMatches ms)

/-- Modelled from the spec: the Collector's node-local to document-global
coordinate translation of a single match, performed through the single
mutator `setOffset`. -/
def translateMatch (globalOffset : Int) (m : Match) : Match :=
  m.setOffset (globalOffset + m.getOffset)

/-- `sliceEq input off t` states (computably) that `t` occurs in `input`
exactly at positions `[off, off + t.length)`. -/
def sliceEq (input : List Char) (off : Nat) (t : List Char) : Bool :=
  decide ((input.drop off).take t.length = t)

/-- Modelled from the spec: the result of the Replacer's per-match transform:
either the built markup string, or the skip sentinel, which makes the
Replacer emit `match.matchedText` verbatim. -/
inductive ReplaceResult where
  | skip
  | markup (s : String)

/-- Modelled from the spec: the text the Replacer substitutes for one match:
the transform's markup, or the match's literal `matchedText` when the
transform returns the skip sentinel. -/
def transformOutput (f : Match → ReplaceResult) (m : Match) : List Char :=
  match f m with
  | .skip => m.matchedText.toList
  | .markup s => s.toList

/-- Modelled from the spec: the Replacer's single walk over the original
string: append `input[cursor .. match.offset)`, then the transform output,
then advance the cursor to `match.endOffset`; after the last match append
the trailing remainder. -/
def replaceRun (input : List Char) (f : Match → ReplaceResult) : Nat → List Match → List Char
  | cursor, [] => input.drop cursor
  | cursor, m :: rest =>
    (input.drop cursor).take (m.offset.toNat - cursor) ++ transformOutput f m
      ++ replaceRun input f m.endOffset.toNat rest

/-- Modelled from the spec: the Replacer, whose implementation is not under
`src/`: reconstructs the output string from the original input, the resolved
match list (ascending offsets), and the per-match transform. -/
def replacer (input : String) (ms : List Match) (f : Match → ReplaceResult) : String :=
  String.mk (replaceRun input.toList f 0 ms)

/-- The well-formedness of a finalized match list over an input, from cursor
position `cursor` on: offsets are non-negative, non-decreasing and
non-overlapping, every span lies inside the input, and every match's
`matchedText` is exactly the input text at its span. This is what a run of
the matchers plus the Collector guarantees about the list handed to the
Replacer. -/
def validFrom (input : List Char) : Nat → List Match → Bool
  | _, [] => true
  | cursor, m :: rest =>
    decide (0 ≤ m.offset) && decide (cursor ≤ m.offset.toNat) &&
      decide (m.offset.toNat + m.matchedText.toList.length ≤ input.length) &&
      sliceEq input m.offset.toNat m.matchedText.toList &&
      validFrom input m.endOffset.toNat rest

/-- A concrete match used by witnesses: text `"ab"` at offset 0. -/
def mW1 : Match :=
  { tagBuilder := tbDefault, matchedText := "ab", offset := 0, kind := .url }

/-- A concrete match used by witnesses: text `"bc"` at node-local offset 1. -/
def mW3 : Match :=
  { tagBuilder := tbDefault, matchedText := "bc", offset := 1, kind := .url }

/-- A concrete match used by witnesses: text `"a"` at offset 0. -/
def mW4 : Match :=
  { tagBuilder := tbDefault, matchedText := "a", offset := 0, kind := .url }

/-- `String.toList` and `String.length` agree. -/
theorem string_toList_length (s : String) : s.toList.length = s.length :=
  rfl

/-- Every match's span is non-degenerate on the right: its end offset is at
least its start offset, since `matchedText.length` is non-negative. -/
theorem Match.offset_le_endOffset (m : Match) : m.offset ≤ m.endOffset := by
  simp only [Match.endOffset]
  omega

/-- Every match surviving `sweep e l` starts at or after the running end
`e`. -/
theorem sweep_offset_ge (e : Int) (l : List Match) :
    ∀ x ∈ sweep e l, e ≤ x.offset := by
  induction l generalizing e with
  | nil => intro x hx; simp [sweep] at hx
  | cons c rest ih =>
    intro x hx
    by_cases h : c.offset < e
    · rw [sweep, if_pos h] at hx
      exact ih e x hx
    · rw [sweep, if_neg h] at hx
      rcases List.mem_cons.mp hx with rfl | hx
      · exact le_of_not_lt h
      · have h0 := le_of_not_lt h
        have h1 := ih c.endOffset x hx
        have h2 := Match.offset_le_endOffset c
        omega

/-- The accepted matches of a sweep are pairwise non-overlapping. -/
theorem sweep_pairwise (e : Int) (l : List Match) :
    List.Pairwise (fun a b => a.endOffset ≤ b.offset) (sweep e l) := by
  induction l generalizing e with
  | nil => simp [sweep]
  | cons c rest ih =>
    by_cases h : c.offset < e
    · rw [sweep, if_pos h]
      exact ih e
    · rw [sweep, if_neg h]
      exact List.Pairwise.cons (fun x hx => sweep_offset_ge c.endOffset rest x hx)
        (ih c.endOffset)

/-- The full sweep (first candidate always accepted) produces a pairwise
non-overlapping list. -/
theorem sweepAll_pairwise (l : List Match) :
    List.Pairwise (fun a b => a.endOffset ≤ b.offset) (sweepAll l) := by
  cases l with
  | nil => simp [sweepAll]
  | cons c rest =>
    exact List.Pairwise.cons (fun x hx => sweep_offset_ge c.endOffset rest x hx)
      (sweep_pairwise c.endOffset rest)

/-- C8: On the base `Match` class (no variant-specific override),
`getCssClassSuffixes` returns exactly the one-element list containing the
match's own type name as returned by `getType`. -/
theorem c8_cssClassSuffixes_default (m : Match) :
    m.getCssClassSuffixes = [m.getType] ∧ m.getCssClassSuffixes.length = 1 := by
  constructor
  · rfl
  · rfl

/-- C9: `setOffset` is the only mutator: after `m.setOffset n`, `getOffset`
returns `n` (and last write wins under repeated calls), while `matchedText`,
`tagBuilder` and the subtype discriminant are unchanged. -/
theorem c9_setOffset_frame (m : Match) (n n' : Int) :
    (m.setOffset n).getOffset = n ∧
      (m.setOffset n).getMatchedText = m.getMatchedText ∧
      (m.setOffset n).tagBuilder = m.tagBuilder ∧
      (m.setOffset n).kind = m.kind ∧
      ((m.setOffset n').setOffset n).getOffset = n := by
  refine ⟨rfl, rfl, rfl, rfl, rfl⟩

/-- C10: the `Match` constructor performs no validation and stores its
configuration verbatim: for every config (including one with empty
`matchedText` and negative `offset`), the freshly constructed match returns
`cfg.matchedText` from `getMatchedText` and `cfg.offset` from `getOffset`;
instantiated also at the concrete config with empty text and offset `-5`. -/
theorem c10_constructor_verbatim :
    (∀ (k : MatchKind) (cfg : MatchConfig),
        (Match.ofConfig k cfg).getMatchedText = cfg.matchedText ∧
          (Match.ofConfig k cfg).getOffset = cfg.offset ∧
          (Match.ofConfig k cfg).tagBuilder = cfg.tagBuilder) ∧
      (Match.ofConfig .url ⟨tbDefault, "", -5⟩).getMatchedText = "" ∧
      (Match.ofConfig .url ⟨tbDefault, "", -5⟩).getOffset = -5 := by
  refine ⟨fun k cfg => ⟨rfl, rfl, rfl⟩, rfl, rfl⟩

/-- C1: the Collector resolves overlaps by first sorting the pooled
candidates by `collOrder` (offset ascending, ties broken by longer
`matchedText` first) — the sorted list is a permutation of the input and is
sorted by that order — and then sweeping left to right with the running end
of the previously accepted match: a candidate with `offset` strictly below
the running end is rejected (dropped), any other candidate is accepted and
the running end advances to its `endOffset`. -/
theorem c1_collector_sort_then_sweep :
    (∀ ms : List Match,
        (sortMatches ms).Perm ms ∧ List.Sorted collOrder (sortMatches ms)) ∧
      (∀ (e : Int) (c : Match) (rest : List Match),
        c.offset < e → sweep e (c :: rest) = sweep e rest) ∧
      (∀ (e : Int) (c : Match) (rest : List Match),
        e ≤ c.offset → sweep e (c :: rest) = c :: sweep c.endOffset rest) ∧
      (∀ ms : List Match, resolveOverlaps ms = sweepAll (sortMatches ms)) := by
  refine ⟨fun ms => ⟨List.perm_insertionSort collOrder ms,
    List.sorted_insertionSort collOrder ms⟩, ?_, ?_, fun ms => rfl⟩
  · intro e c rest h
    rw [sweep, if_pos h]
  · intro e c rest h
    rw [sweep, if_neg (not_lt.mpr h)]

/-- Witness for C1: the sweep laws evaluated at running end 5 and at running
end 0 on the concrete candidate `mW1` (offset 0). -/
theorem c1_collector_sort_then_sweep_witness :
    sweep 5 [mW1] = [] ∧ sweep 0 [mW1] = [mW1] := by
  have h := c1_collector_sort_then_sweep
  constructor
  · have h1 := h.2.1 5 mW1 [] (by decide)
    rw [h1, sweep]
  · have h2 := h.2.2.1 0 mW1 [] (by decide)
    rw [h2, sweep]

/-- C2: for every finite input match sequence, the Collector's output is
sorted by offset ascending and pairwise non-overlapping: each adjacent pair
satisfies `endOffset ≤ offset` of the next. -/
theorem c2_collector_output_invariant (ms : List Match) :
    List.Chain' (fun a b => a.endOffset ≤ b.offset) (resolveOverlaps ms) ∧
      List.Sorted (fun a b => a.offset ≤ b.offset) (resolveOverlaps ms) := by
  have hp := sweepAll_pairwise (sortMatches ms)
  constructor
  · exact hp.chain'
  · exact List.Pairwise.imp
      (fun hab => le_trans (Match.offset_le_endOffset _) hab) hp

/-- `sliceEq` unfolded to its propositional meaning. -/
theorem sliceEq_iff {input : List Char} {off : Nat} {t : List Char} :
    sliceEq input off t = true ↔ (input.drop off).take t.length = t := by
  simp [sliceEq]

/-- Slices compose: a slice of a slice of the input is a slice of the input
at the summed offset. -/
theorem slice_trans {input node t : List Char} {g o : Nat}
    (h1 : (input.drop g).take node.length = node)
    (h2 : (node.drop o).take t.length = t)
    (h3 : o + t.length ≤ node.length) :
    (input.drop (g + o)).take t.length = t := by
  have hd : input.drop (g + o) = (input.drop g).drop o := (List.drop_drop o g input).symm
  have hnode : node.drop o = ((input.drop g).drop o).take (node.length - o) := by
    conv_lhs => rw [← h1]
    exact List.drop_take node.length o (input.drop g)
  have hmin : (node.drop o).take t.length = ((input.drop g).drop o).take t.length := by
    rw [hnode, List.take_take]
    congr 1
    omega
  rw [hd, ← hmin, h2]

/-- C3: every match's derived `endOffset` equals
`offset + matchedText.length`, and after the Collector's global-offset
translation (`translateMatch`, via `setOffset`) the slice of the global
input string at `[offset, endOffset)` is exactly `matchedText`, provided the
match was correct in its text node (its node-local slice equals its text and
lies inside the node) and the node is the slice of the input at the global
base offset. -/
theorem c3_endOffset_and_offset_correctness (m : Match) (input node : List Char) (g : Nat)
    (h0 : 0 ≤ m.offset)
    (h1 : sliceEq input g node = true)
    (h2 : sliceEq node m.offset.toNat m.matchedText.toList = true)
    (h3 : m.offset.toNat + m.matchedText.toList.length ≤ node.length) :
    m.endOffset = m.offset + m.matchedText.length ∧
      sliceEq input ((translateMatch (g : Int) m).getOffset).toNat
        ((translateMatch (g : Int) m).getMatchedText).toList = true := by
  constructor
  · rfl
  · rw [sliceEq_iff] at h1 h2 ⊢
    have hoff : ((translateMatch (g : Int) m).getOffset).toNat = g + m.offset.toNat := by
      simp only [translateMatch, Match.setOffset, Match.getOffset]
      omega
    have htext : ((translateMatch (g : Int) m).getMatchedText) = m.matchedText := rfl
    rw [htext, hoff]
    exact slice_trans h1 h2 h3

/-- Witness for C3: the match `mW3` (text `"bc"` at node-local offset 1) in
the node `"abc"` that begins at global offset 1 of the input `"xabcy"`. -/
theorem c3_endOffset_and_offset_correctness_witness :
    mW3.endOffset = mW3.offset + mW3.matchedText.length ∧
      sliceEq "xabcy".toList ((translateMatch (1 : Int) mW3).getOffset).toNat
        ((translateMatch (1 : Int) mW3).getMatchedText).toList = true :=
  c3_endOffset_and_offset_correctness mW3 "xabcy".toList "abc".toList 1
    (by decide) (by decide) (by decide) (by decide)

/-- On a well-formed match list, the Replacer walk with the all-skip
transform reproduces the remainder of the input from the cursor on. -/
theorem replaceRun_skip (input : List Char) (ms : List Match) :
    ∀ cursor : Nat, validFrom input cursor ms = true →
      replaceRun input (fun _ => ReplaceResult.skip) cursor ms = input.drop cursor := by
  induction ms with
  | nil => intro cursor _; rfl
  | cons m rest ih =>
    intro cursor hv
    simp only [validFrom, Bool.and_eq_true, decide_eq_true_eq] at hv
    obtain ⟨⟨⟨⟨h0, hc⟩, hb⟩, hs⟩, hrest⟩ := hv
    rw [sliceEq_iff] at hs
    have hend : m.endOffset.toNat = m.offset.toNat + m.matchedText.toList.length := by
      simp only [Match.endOffset, string_toList_length]
      omega
    have key : input.drop cursor =
        (input.drop cursor).take (m.offset.toNat - cursor) ++
          (input.drop cursor).drop (m.offset.toNat - cursor) :=
      (List.take_append_drop _ _).symm
    have hdd : (input.drop cursor).drop (m.offset.toNat - cursor) =
        input.drop m.offset.toNat := by
      rw [List.drop_drop]
      congr 1
      omega
    have hsplit : input.drop m.offset.toNat =
        m.matchedText.toList ++
          input.drop (m.offset.toNat + m.matchedText.toList.length) := by
      conv_lhs =>
        rw [← List.take_append_drop m.matchedText.toList.length (input.drop m.offset.toNat)]
      rw [hs, List.drop_drop]
    simp only [replaceRun, transformOutput]
    rw [ih m.endOffset.toNat hrest, hend]
    conv_rhs => rw [key, hdd, hsplit]
    simp [List.append_assoc]

/-- C4: for every input string and every well-formed finalized match list
over it (as produced by any matcher configuration), running the Replacer
with the transform that returns the skip sentinel for every match — so each
match emits its `matchedText` verbatim — reproduces the original input
string exactly. -/
theorem c4_replacer_skip_roundtrip (input : String) (ms : List Match)
    (h : validFrom input.toList 0 ms = true) :
    replacer input ms (fun _ => ReplaceResult.skip) = input := by
  unfold replacer
  rw [replaceRun_skip input.toList ms 0 h]
  rfl

/-- Witness for C4: the input `"ab"` with the single match `mW4` (text `"a"`
at offset 0) round-trips through the all-skip Replacer. -/
theorem c4_replacer_skip_roundtrip_witness :
    replacer "ab" [mW4] (fun _ => ReplaceResult.skip) = "ab" :=
  c4_replacer_skip_roundtrip "ab" [mW4] (by decide)

/-- C5: on the input `"Hello ((123) 456-7890)"`, the Phone matcher returns
exactly one match, whose normalized number value is `"1234567890"`, whose
offset is 7, and whose `matchedText` is `"(123) 456-7890"`, excluding both
enclosing parentheses. -/
theorem c5_phone_parenthetical_containment :
    PhoneMatcher.parseMatches "Hello ((123) 456-7890)" =
      [{ matchedText := "(123) 456-7890", offset := 7, number := "1234567890" }] := by
  rfl

/-- C6: every matcher's scan — Url (for every configuration), Email, Phone,
Mention and Hashtag (for every service) — is total: every string input,
including empty, whitespace-only, unbalanced-punctuation and non-ASCII
ones, yields a result list rather than an error; and on every input
containing no recognizable entity (`""`, `"asdf"`, `"123"`, whitespace-only,
unbalanced punctuation, non-ASCII content), every matcher yields the empty
list. -/
theorem c6_every_matcher_total_no_match_is_empty :
    (∀ (cfg : UrlMatcherConfig) (s : String),
        ∃ r : List UrlMatch, UrlMatcher.parseMatches cfg s = r) ∧
      (∀ s : String, ∃ r : List EmailMatch, EmailMatcher.parseMatches s = r) ∧
      (∀ s : String, ∃ r : List PhoneMatch, PhoneMatcher.parseMatches s = r) ∧
      (∀ (svc : MentionService) (s : String),
        ∃ r : List MentionMatch, MentionMatcher.parseMatches svc s = r) ∧
      (∀ (svc : HashtagService) (s : String),
        ∃ r : List HashtagMatch, HashtagMatcher.parseMatches svc s = r) ∧
      noEntityInputs.all (fun s =>
        (UrlMatcher.parseMatches urlCfgDefault s).isEmpty &&
          (UrlMatcher.parseMatches { requireScheme := true } s).isEmpty &&
          (EmailMatcher.parseMatches s).isEmpty &&
          (PhoneMatcher.parseMatches s).isEmpty &&
          (MentionMatcher.parseMatches .twitter s).isEmpty &&
          (MentionMatcher.parseMatches .instagram s).isEmpty &&
          (HashtagMatcher.parseMatches .twitter s).isEmpty &&
          (HashtagMatcher.parseMatches .facebook s).isEmpty &&
          (HashtagMatcher.parseMatches .instagram s).isEmpty) = true := by
  refine ⟨fun cfg s => ⟨_, rfl⟩, fun s => ⟨_, rfl⟩, fun s => ⟨_, rfl⟩,
    fun svc s => ⟨_, rfl⟩, fun svc s => ⟨_, rfl⟩, by decide⟩

/-- C7: every matcher's `parseMatches` is a pure, deterministic function of
its own input text and configuration: in any sequence of matcher
invocations, of any variants interleaved in any order, each call's result is
exactly `dispatchCall` of that call — the variant's `parseMatches` applied
to its own configuration and text — independent of the calls before and
after it, and two invocations of the same call in one sequence produce the
same result, with no state carried across calls. -/
theorem c7_every_matcher_pure_deterministic :
    (∀ calls : List MatcherCall, runMatcherCalls calls = calls.map dispatchCall) ∧
      (∀ (cs1 cs2 : List MatcherCall) (c : MatcherCall),
        runMatcherCalls (cs1 ++ c :: cs2) =
          runMatcherCalls cs1 ++ dispatchCall c :: runMatcherCalls cs2) ∧
      ∀ (cs1 cs2 cs3 : List MatcherCall) (c : MatcherCall),
        runMatcherCalls (cs1 ++ c :: cs2 ++ c :: cs3) =
          runMatcherCalls cs1 ++ dispatchCall c ::
            (runMatcherCalls cs2 ++ dispatchCall c :: runMatcherCalls cs3) := by
  have hmap : ∀ calls : List MatcherCall, runMatcherCalls calls = calls.map dispatchCall := by
    intro calls
    induction calls with
    | nil => rfl
    | cons c cs ih => simp [runMatcherCalls, ih]
  refine ⟨hmap, fun cs1 cs2 c => ?_, fun cs1 cs2 cs3 c => ?_⟩
  · simp [hmap]
  · simp [hmap]

end Autolinker
